import Mathlib

/-!
Verification of the ODS emission engine of
`python/torch_mlir/dialects/torch/importer/jit_ir/build_tools/torch_ods_gen.py`.

The Python module is embedded shallowly: the text sink (`TextEmitter`) is
modelled as the ordered list of strings passed to its `print` method, and a
partially failing emission is a pair of the chunks appended so far and an
optional error message (a raised exception).  All string constants are
reproduced verbatim from the source.
-/

namespace TorchOdsGen

/-- One typed, possibly named argument or return slot of an operator schema
(the registry stores arguments and returns as dicts with `name` and `type`
keys; an absent return name is the empty string). -/
structure Arg where
  name : String
  type : String
deriving DecidableEq

/-- Modelled from the spec: the registry's `JitOperator` value object.  The
fields are the data the emission engine reads: the unique key, the
(namespace, unqualified name, overload) triple (`ns` stands for the
namespace component, `namespace` being a reserved word), the ordered typed
arguments and returns, the two variadic flags, and the two derived semantic
predicates `has_value_semantics()` / `is_readonly()` (modelled as fields,
since their computation lives in the external registry module). -/
structure JitOperator where
  unique_key : String
  ns : String
  unqualified_name : String
  overload : String
  arguments : List Arg
  returns : List Arg
  is_vararg : Bool
  is_varret : Bool
  has_value_semantics : Bool
  is_readonly : Bool
deriving DecidableEq

/-- The static mapping from torch type strings to ODS type predicates
(`TORCH_TYPE_TO_ODS_TYPE` in the source), kept as an association list in
the source's insertion order. -/
def TORCH_TYPE_TO_ODS_TYPE : List (String × String) :=
  [("Tensor", "AnyTorchTensorType"),
   ("Tensor?", "AnyTorchOptionalTensorType"),
   ("Tensor?[]", "AnyTorchListOfOptionalTensorType"),
   ("Tensor[]", "AnyTorchListOfTensorType"),
   ("Scalar", "AnyTorchScalarType"),
   ("Scalar?", "AnyTorchOptionalScalarType"),
   ("int", "Torch_IntType"),
   ("int[]", "AnyTorchListOfTorchIntType"),
   ("int?", "AnyTorchOptionalIntType"),
   ("int[]?", "AnyTorchOptionalListOfTorchIntType"),
   ("bool", "Torch_BoolType"),
   ("bool[]", "AnyTorchListOfTorchBoolType"),
   ("bool?", "AnyTorchOptionalBoolType"),
   ("float", "Torch_FloatType"),
   ("float?", "AnyTorchOptionalFloatType"),
   ("float[]", "AnyTorchListOfTorchFloatType"),
   ("float[]?", "AnyTorchOptionalListOfTorchFloatType"),
   ("t[]", "AnyTorchListType"),
   ("t", "AnyTorchType"),
   ("t1", "AnyTorchType"),
   ("t2", "AnyTorchType"),
   ("Any", "AnyTorchType"),
   ("Device", "Torch_DeviceType"),
   ("Device?", "AnyTorchOptionalDeviceType"),
   ("Generator", "Torch_GeneratorType"),
   ("Generator?", "AnyTorchOptionalGeneratorType"),
   ("str", "Torch_StringType"),
   ("str?", "AnyTorchOptionalStringType"),
   ("str[]", "AnyTorchListOfTorchStringType"),
   ("Dict", "Torch_DictType"),
   ("__torch__.torch.classes.quantized.LinearPackedParamsBase", "Torch_LinearParamsType")]

/-- Python's `s.startswith(p)`, expressed on the underlying character
lists so that it computes by kernel reduction. -/
def startswith (s p : String) : Bool :=
  s.data.take p.data.length == p.data

/-- The dictionary-prefix normalization applied by `get_ods_type` before
lookup: any spelling beginning with `Dict(` collapses to the bare `Dict`. -/
def normalize_dict (type : String) : String :=
  if startswith type ("Dict(") then "Dict" else type

/-- Association-list lookup in `TORCH_TYPE_TO_ODS_TYPE`
(the Python `dict.get`). -/
def lookupType (type : String) : Option String :=
  (TORCH_TYPE_TO_ODS_TYPE.find? (fun p => p.1 == type)).map (fun p => p.2)

/-- `get_ods_type` from the source: normalize a `Dict(...)` spelling to
`Dict`, look the result up in `TORCH_TYPE_TO_ODS_TYPE`, and raise an
exception naming the spelling when the lookup misses. -/
def get_ods_type (type : String) : Except String String :=
  match lookupType (normalize_dict type) with
  | none =>
      Except.error
        ("\x27" ++ (normalize_dict type ++ "\x27 not in TORCH_TYPE_TO_ODS_TYPE mapping. Please add it!"))
  | some ods_type => Except.ok ods_type

/-- Modelled from the spec: the text sink's `quote` operation (the external
`TextEmitter.quote`), producing a syntactically safe embedded string
literal; modelled as wrapping in double quotes. -/
def quote (s : String) : String :=
  "\"" ++ (s ++ "\"")

/-- Modelled from the spec: the registry's `JitOperator.get_mlir_names`,
which derives the wire-format operation name and the generated definition
identifier from the operator's triple (external registry code; the claims
below never depend on its exact spelling, only that it is some pair of
strings determined by the operator). -/
def get_mlir_names (op : JitOperator) : String × String :=
  (op.ns ++ ("." ++ (op.unqualified_name ++ (if op.overload = "" then "" else "." ++ op.overload))),
   op.ns ++ ("_" ++ (op.unqualified_name ++ ((if op.overload = "" then "" else "_" ++ op.overload) ++ "Op"))))

/-- `multiple_results = len(operator.returns) > 1` from `raw_emit_op`. -/
def multiple_results (op : JitOperator) : Bool :=
  decide (1 < op.returns.length)

/-- `generic_result_name` from `raw_emit_op`: `"result" + (str(i) if
multiple_results else "")`. -/
def generic_result_name (op : JitOperator) (i : Nat) : String :=
  "result" ++ (if multiple_results op then Nat.repr i else "")

/-- The name used for the result at position `i`: the Python expression
`ret["name"] or generic_result_name(i)` (the explicit name when non-empty,
the synthesized generic name otherwise). -/
def result_ods_name (op : JitOperator) (i : Nat) (ret : Arg) : String :=
  if ret.name = "" then generic_result_name op i else ret.name

/-- The ordered list of result names one operator's definition block uses,
one per return, in declared order. -/
def result_names (op : JitOperator) : List String :=
  (op.returns.enum).map (fun er => result_ods_name op er.1 er.2)

/-- `assembly_operands` from the variadic branch of `raw_emit_op`. -/
def assembly_operands (op : JitOperator) : String :=
  if op.is_vararg then "`(` $operands `)`"
  else String.intercalate (" `,` ") (op.arguments.map (fun arg => "$" ++ arg.name))

/-- `assembly_operand_types` from the variadic branch of `raw_emit_op`. -/
def assembly_operand_types (op : JitOperator) : String :=
  if op.is_vararg then "qualified(type($operands))"
  else
    String.intercalate (" `,` ")
      (op.arguments.map (fun arg => "qualified(type($" ++ (arg.name ++ "))")))

/-- `assembly_result_types` from the variadic branch of `raw_emit_op`. -/
def assembly_result_types (op : JitOperator) : String :=
  if op.is_varret then "qualified(type($results))"
  else
    String.intercalate (" `,` ")
      ((op.returns.enum).map
        (fun er => "qualified(type($" ++ (result_ods_name op er.1 er.2 ++ "))")))

/-- `maybe_arrow`: the arrow separator is inserted exactly when both the
operand-type clause and the result-type clause are non-empty strings
(Python truthiness of `assembly_operand_types and assembly_result_types`). -/
def maybe_arrow (op : JitOperator) : String :=
  if assembly_operand_types op ≠ "" ∧ assembly_result_types op ≠ "" then " `->` " else ""

/-- The synthesized `assemblyFormat` string
`f"{assembly_operands} attr-dict `:` {assembly_operand_types}{maybe_arrow}{assembly_result_types}"`. -/
def assembly_format (op : JitOperator) : String :=
  assembly_operands op
    ++ (" attr-dict `:` "
      ++ (assembly_operand_types op ++ (maybe_arrow op ++ assembly_result_types op)))

/-- The `extraClassDefinition` block emitted for operators without a
synthesized assembly format: hand-written parse/print hooks parameterized
by the declared argument count and the declared return count. -/
def extra_class_definition (cpp_class_name : String) (nargs nrets : Nat) : String :=
  "let extraClassDefinition = [\x7b\n  ParseResult "
    ++ (cpp_class_name
      ++ ("::parse(OpAsmParser &parser, OperationState &result) \x7b\n    return parseDefaultTorchOp(parser, result, "
        ++ (Nat.repr nargs
          ++ (", "
            ++ (Nat.repr nrets
              ++ (");\n  \x7d\n  void "
                ++ (cpp_class_name
                  ++ ("::print(OpAsmPrinter &printer) \x7b\n    printDefaultTorchOp(printer, *this, "
                    ++ (Nat.repr nargs
                      ++ (", "
                        ++ (Nat.repr nrets ++ (");\n  \x7d\n\x7d];\n"))))))))))))

/-- The chunks the assembly-format section of `raw_emit_op` prints: a
single `assemblyFormat` line when the operator is vararg or varret, and
otherwise the `hasCustomAssemblyFormat` marker followed by the parse/print
hook block. -/
def assembly_section (op : JitOperator) : List String :=
  if op.is_vararg || op.is_varret then
    ["let assemblyFormat = " ++ (quote (assembly_format op) ++ ";")]
  else
    ["let hasCustomAssemblyFormat = 1;",
     extra_class_definition (get_mlir_names op).2 op.arguments.length op.returns.length]

/-- The text of the argument list: a single variadic group when
`is_vararg`, otherwise one `type:$name` entry per argument in declared
order, with type resolution failures propagated (the Python list
comprehension raises at the first unmapped type). -/
def arguments_chunk (op : JitOperator) : Except String String :=
  if op.is_vararg then Except.ok ("Variadic<AnyTorchType>:$operands")
  else do
    let parts ← op.arguments.mapM (fun arg => do
      let t ← get_ods_type arg.type
      pure (t ++ (":$" ++ arg.name)))
    pure (String.intercalate (",\n") parts)

/-- The text of the result list: a single variadic group when `is_varret`,
otherwise one `type:$name` entry per return in declared order using
`result_ods_name`. -/
def results_chunk (op : JitOperator) : Except String String :=
  if op.is_varret then Except.ok ("Variadic<AnyTorchType>:$results")
  else do
    let parts ← (op.returns.enum).mapM (fun er => do
      let t ← get_ods_type er.2.type
      pure (t ++ (":$" ++ result_ods_name op er.1 er.2)))
    pure (String.intercalate (",\n") parts)

/-- The optional one-line folder / canonicalizer markers. -/
def folder_chunks (has_folder has_canonicalizer : Bool) : List String :=
  (if has_folder then ["let hasFolder = 1;"] else [])
    ++ (if has_canonicalizer then ["let hasCanonicalizer = 1;"] else [])

/-- The chunks `raw_emit_op` prints before evaluating any argument type:
the `def` line, the joined trait list, the block opener, the summary, and
the `let arguments = (ins` opener. -/
def header_chunks (op : JitOperator) (traits : List String) : List String :=
  ["def Torch_" ++ ((get_mlir_names op).2 ++ (" : Torch_Op<" ++ (quote (get_mlir_names op).1 ++ ", ["))),
   String.intercalate (",\n") traits,
   "]> \x7b",
   "let summary = " ++ (quote ("Generated op for `" ++ (op.unique_key ++ "`")) ++ ";"),
   "let arguments = (ins"]

/-- `raw_emit_op`: the ordered chunks printed to the sink, paired with the
error of a raised exception when a type fails to resolve.  Chunks printed
before the failing computation remain in the sink, matching the Python
order of `p_td` calls. -/
def raw_emit_op (op : JitOperator) (traits : List String)
    (has_folder has_canonicalizer : Bool) : List String × Option String :=
  match arguments_chunk op with
  | Except.error e => (header_chunks op traits, some e)
  | Except.ok args_text =>
    match results_chunk op with
    | Except.error e =>
      (header_chunks op traits ++ [args_text, ");", "let results = (outs"], some e)
    | Except.ok results_text =>
      (header_chunks op traits
        ++ ([args_text, ");", "let results = (outs", results_text, ");"]
          ++ (assembly_section op
            ++ (folder_chunks has_folder has_canonicalizer ++ ["\x7d", "\n"]))),
       none)

/-- The traits inferred by `emit_op` (`AllowsTypeRefinement` always, then
`HasValueSemantics` and `ReadOnly` under their flags), in the order the
source appends them. -/
def inferred_traits (op : JitOperator) : List String :=
  ["AllowsTypeRefinement"]
    ++ ((if op.has_value_semantics then ["HasValueSemantics"] else [])
      ++ (if op.is_readonly then ["ReadOnly"] else []))

/-- The trait list `emit_op` passes to `raw_emit_op`, which is also the
state of the caller's list after the call: the Python `traits += [...]`
statements extend the caller-supplied list object in place (a `None`
argument first becomes a fresh empty list). -/
def emit_op_traits (op : JitOperator) (traits : Option (List String)) : List String :=
  traits.getD [] ++ inferred_traits op

/-- `emit_op`: trait inference followed by `raw_emit_op`. -/
def emit_op (op : JitOperator) (traits : Option (List String))
    (has_folder has_canonicalizer : Bool) : List String × Option String :=
  raw_emit_op op (emit_op_traits op traits) has_folder has_canonicalizer

/-- Modelled from the spec: the external operator registry, supporting
lookup by unique key and lookup by (namespace, name, overload) triple. -/
structure Registry where
  ops : List JitOperator

/-- Modelled from the spec: `registry[key]`, lookup by unique key. -/
def Registry.getByKey (r : Registry) (key : String) : Option JitOperator :=
  r.ops.find? (fun o => o.unique_key == key)

/-- Modelled from the spec: `registry.get_by_triple`, lookup by the
(namespace, unqualified name, overload) triple. -/
def Registry.get_by_triple (r : Registry) (t : String × String × String) : Option JitOperator :=
  r.ops.find? (fun o => o.ns == t.1 && (o.unqualified_name == t.2.1 && o.overload == t.2.2))

/-- `is_functional_op = overload == "functional"` from
`emit_with_mutating_variants`. -/
def is_functional_op (op : JitOperator) : Bool :=
  op.overload == "functional"

/-- The derived triple of the in-place counterpart: same namespace, the
unqualified name with a trailing underscore, and the overload cleared to
empty exactly when the base overload is the `functional` sentinel. -/
def derived_triple (op : JitOperator) : String × String × String :=
  (op.ns, op.unqualified_name ++ "_", if is_functional_op op then "" else op.overload)

/-- The explicit traits passed when emitting the derived variant:
`IsTrailingUnderscoreInplaceVariant` unless the base overload is the
`functional` sentinel. -/
def variant_traits (op : JitOperator) : List String :=
  if is_functional_op op then [] else ["IsTrailingUnderscoreInplaceVariant"]

/-- Modelled from the spec: the `UnresolvedVariantError` surfaced when a
derived mutating-variant triple is absent from the registry, naming the
attempted triple. -/
def unresolved_variant_error (t : String × String × String) : String :=
  "UnresolvedVariantError: (" ++ (t.1 ++ (", " ++ (t.2.1 ++ (", " ++ (t.2.2 ++ ")")))))

/-- `emit_with_mutating_variants`: emit the base operator, derive and look
up the in-place counterpart's triple, and emit the variant with the
pairing trait.  The base operator's chunks are appended to the sink before
the variant lookup happens, so they remain even when the lookup fails. -/
def emit_with_mutating_variants (r : Registry) (key : String)
    (traits : Option (List String)) (has_folder has_canonicalizer : Bool) :
    List String × Option String :=
  match r.getByKey key with
  | none => ([], some ("KeyError: " ++ key))
  | some operator =>
    let base := emit_op operator traits has_folder has_canonicalizer
    match base.2 with
    | some e => (base.1, some e)
    | none =>
      match r.get_by_triple (derived_triple operator) with
      | none => (base.1, some (unresolved_variant_error (derived_triple operator)))
      | some variantOp =>
        let v := emit_op variantOp (some (variant_traits operator)) false false
        (base.1 ++ v.1, v.2)

/-- Whether the emitted assembly section contains a synthesized
`assemblyFormat` line. -/
def emits_fixed_assembly_format (op : JitOperator) : Bool :=
  (assembly_section op).any (fun c => startswith c ("let assemblyFormat = "))

/-- Whether the emitted assembly section contains the hand-written
parse/print hook block. -/
def emits_parse_print_hooks (op : JitOperator) : Bool :=
  (assembly_section op).any (fun c => startswith c ("let extraClassDefinition = ["))

/-- Big-endian decimal digit characters of a natural number: the reference
function that `Nat.toDigitsCore` (used by `Nat.repr`, i.e. Python's
`str(i)`) computes. -/
def digitsAux (n : Nat) : List Char :=
  if _h : n < 10 then [Nat.digitChar n]
  else digitsAux (n / 10) ++ [Nat.digitChar (n % 10)]
termination_by n
decreasing_by
  exact Nat.div_lt_self (by omega) (by omega)

/-- Numeric value of one decimal digit character. -/
def digit_val (c : Char) : Nat :=
  c.toNat - 48

/- Concrete operators and registries used to instantiate the theorems
below.  They are shaped after catalog entries of the source file. -/

/-- `aten::tanh : (Tensor) -> (Tensor)`: a fixed-arity operator with value
semantics (the plain case of the emission engine). -/
def opTanh : JitOperator :=
  ⟨"aten::tanh : (Tensor) -> (Tensor)", "aten", "tanh", "",
   [⟨"self", "Tensor"⟩], [⟨"", "Tensor"⟩], false, false, true, true⟩

/-- A vararg operator with no declared returns (shaped after
`prim::Print : (...) -> ()`). -/
def opVarargNoRets : JitOperator :=
  ⟨"prim::Print : (...) -> ()", "prim", "Print", "",
   [], [], true, false, false, true⟩

/-- A varret operator with no declared arguments (shaped after a
`-> (...)` schema). -/
def opNoArgsVarret : JitOperator :=
  ⟨"test::produce : () -> (...)", "test", "produce", "",
   [], [], false, true, false, true⟩

/-- `aten::zero : (Tensor) -> (Tensor)`, a base operator whose in-place
counterpart `aten::zero_` is deliberately left out of `regC2`. -/
def opZero : JitOperator :=
  ⟨"aten::zero : (Tensor) -> (Tensor)", "aten", "zero", "",
   [⟨"self", "Tensor"⟩], [⟨"", "Tensor"⟩], false, false, true, true⟩

/-- A registry holding only `opZero`, with no `aten::zero_` variant. -/
def regC2 : Registry :=
  ⟨[opZero]⟩

/-- An operator with both semantic flags set, used to exercise trait
inference. -/
def opC3 : JitOperator :=
  ⟨"test::c3 : () -> ()", "test", "c3", "", [], [], false, false, true, true⟩

/-- An operator with value semantics only, used to exhibit a duplicated
trait when `HasValueSemantics` is also passed explicitly (as the catalog
does for `quantized::linear`). -/
def opC4 : JitOperator :=
  ⟨"test::c4 : () -> ()", "test", "c4", "", [], [], false, false, true, false⟩

/-- An operator whose first return carries the explicit name `result1`,
colliding with the name synthesized for its second, nameless return. -/
def opC8bad : JitOperator :=
  ⟨"test::c8 : () -> (Tensor, Tensor)", "test", "c8", "",
   [], [⟨"result1", "Tensor"⟩, ⟨"", "Tensor"⟩], false, false, true, true⟩

/-- An operator with two nameless returns (shaped after
`aten::max.dim : (Tensor, int, bool) -> (Tensor, Tensor)`). -/
def opMaxDim : JitOperator :=
  ⟨"aten::max.dim : (Tensor, int, bool) -> (Tensor, Tensor)", "aten", "max", "dim",
   [⟨"self", "Tensor"⟩, ⟨"dim", "int"⟩, ⟨"keepdim", "bool"⟩],
   [⟨"", "Tensor"⟩, ⟨"", "Tensor"⟩], false, false, true, true⟩

/-- An operator with both semantic flags set, used for the trait-inference
re-invocation scenario. -/
def opC9 : JitOperator :=
  ⟨"test::c9 : () -> ()", "test", "c9", "", [], [], false, false, true, true⟩

/-- `aten::triu : (Tensor, int) -> (Tensor)`, a base operator with a
non-functional (empty) overload. -/
def opBaseTriu : JitOperator :=
  ⟨"aten::triu : (Tensor, int) -> (Tensor)", "aten", "triu", "",
   [⟨"self", "Tensor"⟩, ⟨"diagonal", "int"⟩], [⟨"", "Tensor"⟩], false, false, true, true⟩

/-- `aten::triu_ : (Tensor, int) -> (Tensor)`, the in-place counterpart of
`opBaseTriu`. -/
def opVarTriu : JitOperator :=
  ⟨"aten::triu_ : (Tensor, int) -> (Tensor)", "aten", "triu_", "",
   [⟨"self", "Tensor"⟩, ⟨"diagonal", "int"⟩], [⟨"", "Tensor"⟩], false, false, false, false⟩

/-- A registry holding `opBaseTriu` together with its in-place variant. -/
def regC6 : Registry :=
  ⟨[opBaseTriu, opVarTriu]⟩

/-! Helper lemmas: decimal rendering (`Nat.repr`, Python's `str`) is
injective, and basic facts about the embedded emitter. -/

theorem string_data_append (a b : String) : (a ++ b).data = a.data ++ b.data :=
  rfl

theorem string_append_left_cancel {a b c : String} (h : a ++ b = a ++ c) : b = c := by
  have hd : a.data ++ b.data = a.data ++ c.data := by
    rw [← string_data_append, ← string_data_append, h]
  obtain ⟨bd⟩ := b
  obtain ⟨cd⟩ := c
  have hd2 : a.data ++ bd = a.data ++ cd := hd
  have hbc : bd = cd := List.append_cancel_left hd2
  rw [hbc]

theorem digit_val_digitChar {n : Nat} (h : n < 10) : digit_val (Nat.digitChar n) = n := by
  interval_cases n <;> decide

theorem foldl_digitsAux (n : Nat) : ∀ a : Nat,
    (digitsAux n).foldl (fun acc c => acc * 10 + digit_val c) a
      = a * 10 ^ (digitsAux n).length + n := by
  induction n using Nat.strong_induction_on with
  | _ n ih =>
    intro a
    by_cases h : n < 10
    · rw [digitsAux, dif_pos h]
      simp [List.foldl, digit_val_digitChar h]
    · rw [digitsAux, dif_neg h]
      rw [List.foldl_append]
      rw [ih (n / 10) (Nat.div_lt_self (by omega) (by omega))]
      have hm : digit_val (Nat.digitChar (n % 10)) = n % 10 :=
        digit_val_digitChar (Nat.mod_lt n (by omega))
      have key : n / 10 * 10 + n % 10 = n := by omega
      simp only [List.foldl_cons, List.foldl_nil, List.length_append, List.length_cons,
        List.length_nil, hm]
      calc (a * 10 ^ (digitsAux (n / 10)).length + n / 10) * 10 + n % 10
          = a * 10 ^ ((digitsAux (n / 10)).length + (0 + 1)) + (n / 10 * 10 + n % 10) := by
            ring
        _ = a * 10 ^ ((digitsAux (n / 10)).length + (0 + 1)) + n := by rw [key]

theorem digitsAux_inj {m n : Nat} (h : digitsAux m = digitsAux n) : m = n := by
  have hm := foldl_digitsAux m 0
  have hn := foldl_digitsAux n 0
  rw [h] at hm
  simp only [Nat.zero_mul, Nat.zero_add] at hm hn
  exact hm.symm.trans hn

theorem toDigitsCore_eq_digitsAux :
    ∀ (fuel n : Nat) (ds : List Char), n < fuel →
      Nat.toDigitsCore 10 fuel n ds = digitsAux n ++ ds := by
  intro fuel
  induction fuel with
  | zero => exact fun n ds h => absurd h (Nat.not_lt_zero n)
  | succ fuel ih =>
    intro n ds h
    by_cases h0 : n / 10 = 0
    · have hn : n < 10 := by omega
      have hmod : n % 10 = n := Nat.mod_eq_of_lt hn
      simp only [Nat.toDigitsCore, h0, if_true, hmod]
      rw [digitsAux, dif_pos hn]
      rfl
    · have hlt : n / 10 < fuel := by
        have h1 : n / 10 < n := Nat.div_lt_self (by omega) (by omega)
        omega
      simp only [Nat.toDigitsCore, h0, if_false]
      rw [show digitsAux n = digitsAux (n / 10) ++ [Nat.digitChar (n % 10)] from by
        rw [digitsAux, dif_neg (by omega : ¬ n < 10)]]
      rw [ih (n / 10) _ hlt]
      simp [List.append_assoc]

theorem nat_repr_eq_digitsAux (n : Nat) : Nat.repr n = (digitsAux n).asString := by
  unfold Nat.repr Nat.toDigits
  rw [toDigitsCore_eq_digitsAux (n + 1) n [] (Nat.lt_succ_self n), List.append_nil]

theorem nat_repr_inj {m n : Nat} (h : Nat.repr m = Nat.repr n) : m = n := by
  rw [nat_repr_eq_digitsAux, nat_repr_eq_digitsAux] at h
  exact digitsAux_inj (List.asString_inj.mp h)

theorem not_mem_inferred_traits (op : JitOperator) :
    ("IsTrailingUnderscoreInplaceVariant" : String) ∉ inferred_traits op := by
  by_cases h1 : op.has_value_semantics <;> by_cases h2 : op.is_readonly <;>
    simp [inferred_traits, h1, h2]

theorem raw_emit_op_fst_ne_nil (op : JitOperator) (traits : List String)
    (hf hc : Bool) : (raw_emit_op op traits hf hc).1 ≠ [] := by
  unfold raw_emit_op
  cases arguments_chunk op with
  | error e => simp [header_chunks]
  | ok a =>
    cases results_chunk op with
    | error e => simp [header_chunks]
    | ok r => simp [header_chunks]

/-- Claim C3 is refuted: with the explicit trait list `["Pure"]` (as the
catalog passes for `prim::Uninitialized`), the accumulated trait sequence
starts with the caller-supplied trait, not with the type-refinement trait,
because `emit_op` appends the inferred traits *after* the caller's list. -/
theorem C3_counterexample :
    emit_op_traits opC3 (some ["Pure"])
      = ["Pure", "AllowsTypeRefinement", "HasValueSemantics", "ReadOnly"]
  ∧ (emit_op_traits opC3 (some ["Pure"]))[0]? ≠ some ("AllowsTypeRefinement") := by
  exact ⟨by decide, by decide⟩

/-- Claim C3, amended: for every operator and explicit-trait list, the
ordered trait sequence is the caller-supplied explicit traits first,
followed by the type-refinement trait, then the value-semantics trait when
`has_value_semantics` holds, then the read-only trait when `is_readonly`
holds; in particular the explicit traits form the prefix of the output. -/
theorem C3_trait_order (op : JitOperator) (ts : List String) :
    emit_op_traits op (some ts)
      = ts ++ (["AllowsTypeRefinement"]
          ++ ((if op.has_value_semantics then ["HasValueSemantics"] else [])
            ++ (if op.is_readonly then ["ReadOnly"] else [])))
  ∧ (emit_op_traits op (some ts)).take ts.length = ts := by
  refine ⟨rfl, ?_⟩
  exact List.take_left ts (inferred_traits op)

/-- Claim C4 is refuted: when the caller passes `HasValueSemantics`
explicitly for an operator that also infers it (the shape of the
`quantized::linear` catalog entry), the accumulated sequence holds the
trait twice and `raw_emit_op` prints the duplicated list verbatim as the
second chunk of the definition block. -/
theorem C4_counterexample :
    emit_op_traits opC4 (some ["HasValueSemantics"])
      = ["HasValueSemantics", "AllowsTypeRefinement", "HasValueSemantics"]
  ∧ (emit_op_traits opC4 (some ["HasValueSemantics"])).count ("HasValueSemantics") = 2
  ∧ ((raw_emit_op opC4 (emit_op_traits opC4 (some ["HasValueSemantics"])) false false).1)[1]?
      = some ("HasValueSemantics,\nAllowsTypeRefinement,\nHasValueSemantics") := by
  refine ⟨by decide, by decide, by rfl⟩

/-- Claim C4, amended: the textual trait list is emitted verbatim — the
second printed chunk of every definition block is exactly the
comma-newline join of the accumulated trait sequence, and the accumulation
performed by `emit_op` preserves every occurrence (no de-duplication), so
a trait occurs in the emitted list as often as it occurs in the explicit
list plus the inferred list. -/
theorem C4_traits_emitted_verbatim (op : JitOperator) (traits : List String)
    (hf hc : Bool) (t : String) :
    ((raw_emit_op op traits hf hc).1)[1]? = some (String.intercalate (",\n") traits)
  ∧ (emit_op_traits op (some traits)).count t
      = traits.count t + (inferred_traits op).count t := by
  constructor
  · unfold raw_emit_op
    cases arguments_chunk op with
    | error e => rfl
    | ok a =>
      cases results_chunk op with
      | error e => rfl
      | ok r => rfl
  · exact List.count_append t traits (inferred_traits op)

/-- Claim C9 is refuted: re-invoking the trait inference with the very
list object the first call mutated (Python `traits += [...]` extends the
caller's list in place, so after the first call that object holds the
first call's output) produces a longer, different trait sequence. -/
theorem C9_counterexample :
    emit_op_traits opC9 (some (emit_op_traits opC9 (some ["Pure"])))
      ≠ emit_op_traits opC9 (some ["Pure"]) := by
  decide

/-- Claim C9, amended: trait inference is a function of the operator's two
semantic flags and the value of the explicit-trait list, so two calls on
equal-valued (but distinct) lists agree; reusing the same list object does
not, because the first call appends the inferred traits to it in place, so
the second call's output carries them twice. -/
theorem C9_trait_inference_determinism (a b : JitOperator)
    (ts₁ ts₂ : Option (List String))
    (hv : a.has_value_semantics = b.has_value_semantics)
    (hr : a.is_readonly = b.is_readonly) (ht : ts₁ = ts₂) :
    emit_op_traits a ts₁ = emit_op_traits b ts₂
  ∧ emit_op_traits a (some (emit_op_traits a ts₁))
      = emit_op_traits a ts₁ ++ inferred_traits a := by
  subst ht
  constructor
  · simp [emit_op_traits, inferred_traits, hv, hr]
  · rfl

/-- Witness for C9's amended statement at `opC9` and the explicit list
`["Pure"]`. -/
theorem C9_trait_inference_determinism_witness :
    emit_op_traits opC9 (some ["Pure"]) = emit_op_traits opC9 (some ["Pure"])
  ∧ emit_op_traits opC9 (some (emit_op_traits opC9 (some ["Pure"])))
      = emit_op_traits opC9 (some ["Pure"]) ++ inferred_traits opC9 :=
  C9_trait_inference_determinism opC9 opC9 (some ["Pure"]) (some ["Pure"]) rfl rfl rfl

/-- Claim C10: `emit_op` extends a caller-supplied (non-`None`) trait list
in place via `+=`; after the call the caller's list equals the old list
with the inferred traits appended, hence it is strictly longer (at least
the type-refinement trait is always appended). -/
theorem C10_caller_list_mutated (op : JitOperator) (ts : List String) :
    emit_op_traits op (some ts) = ts ++ inferred_traits op
  ∧ 0 < (inferred_traits op).length
  ∧ ts.length < (emit_op_traits op (some ts)).length := by
  refine ⟨rfl, ?_, ?_⟩
  · simp [inferred_traits]
  · have h : (emit_op_traits op (some ts)).length
        = ts.length + (inferred_traits op).length := by
      simp [emit_op_traits]
    have h0 : 0 < (inferred_traits op).length := by simp [inferred_traits]
    omega

/-- Claim C5: after dictionary-prefix normalization, `get_ods_type`
returns the mapped predicate for every spelling inside the closed
enumeration, and raises an error naming the offending (normalized)
spelling for every spelling outside it; in particular `Tensor?[]` resolves
to the list-of-optional-tensor predicate and `Complex` raises the error
naming `Complex`. -/
theorem C5_type_table_closed_enumeration :
    (∀ t p, lookupType (normalize_dict t) = some p → get_ods_type t = Except.ok p)
  ∧ (∀ t, lookupType (normalize_dict t) = none →
      get_ods_type t
        = Except.error
            ("\x27" ++ (normalize_dict t ++ "\x27 not in TORCH_TYPE_TO_ODS_TYPE mapping. Please add it!")))
  ∧ get_ods_type ("Tensor?[]") = Except.ok ("AnyTorchListOfOptionalTensorType")
  ∧ get_ods_type ("Complex")
      = Except.error ("\x27Complex\x27 not in TORCH_TYPE_TO_ODS_TYPE mapping. Please add it!") := by
  refine ⟨?_, ?_, by rfl, by rfl⟩
  · intro t p h
    simp [get_ods_type, h]
  · intro t h
    simp [get_ods_type, h]

/-- Witness for C5 at the in-enumeration spelling `int` and the
out-of-enumeration spelling `Complex`. -/
theorem C5_type_table_closed_enumeration_witness :
    get_ods_type ("int") = Except.ok ("Torch_IntType")
  ∧ get_ods_type ("Complex")
      = Except.error
          ("\x27" ++ (normalize_dict ("Complex") ++ "\x27 not in TORCH_TYPE_TO_ODS_TYPE mapping. Please add it!")) :=
  ⟨C5_type_table_closed_enumeration.1 ("int") ("Torch_IntType") rfl,
   C5_type_table_closed_enumeration.2.1 ("Complex") rfl⟩

/-- Claim C7: in the synthesized assembly format the arrow separator is
inserted exactly when both the operand-type clause and the result-type
clause are non-empty; a non-vararg operator with no declared arguments and
variadic results gets the result-type clause with no arrow before it, and
a vararg operator with no declared returns gets the operand-type clause
with no trailing arrow. -/
theorem C7_arrow_omission (op : JitOperator) :
    ((op.is_vararg = true ∨ op.is_varret = true) →
      (maybe_arrow op = " `->` "
        ↔ (assembly_operand_types op ≠ "" ∧ assembly_result_types op ≠ "")))
  ∧ (op.arguments = [] → op.is_vararg = false → op.is_varret = true →
      assembly_format op = " attr-dict `:` qualified(type($results))")
  ∧ (op.returns = [] → op.is_varret = false → op.is_vararg = true →
      assembly_format op = "`(` $operands `)` attr-dict `:` qualified(type($operands))") := by
  refine ⟨?_, ?_, ?_⟩
  · intro _
    by_cases h : assembly_operand_types op ≠ "" ∧ assembly_result_types op ≠ ""
    · simp [maybe_arrow, h]
    · rw [maybe_arrow, if_neg h]
      simp only [h, iff_false]
      decide
  · intro harg hv hr
    have h1 : assembly_operand_types op = "" := by
      simp only [assembly_operand_types, hv, Bool.false_eq_true, if_false, harg, List.map_nil]
      rfl
    have h2 : assembly_operands op = "" := by
      simp only [assembly_operands, hv, Bool.false_eq_true, if_false, harg, List.map_nil]
      rfl
    have h3 : assembly_result_types op = "qualified(type($results))" := by
      simp [assembly_result_types, hr]
    have h4 : maybe_arrow op = "" := by
      rw [maybe_arrow, if_neg]
      simp [h1]
    rw [assembly_format, h1, h2, h3, h4]
    rfl
  · intro hret hr hv
    have h1 : assembly_operand_types op = "qualified(type($operands))" := by
      simp [assembly_operand_types, hv]
    have h2 : assembly_operands op = "`(` $operands `)`" := by
      simp [assembly_operands, hv]
    have h3 : assembly_result_types op = "" := by
      simp only [assembly_result_types, hr, Bool.false_eq_true, if_false, hret,
        List.enum_nil, List.map_nil]
      rfl
    have h4 : maybe_arrow op = "" := by
      rw [maybe_arrow, if_neg]
      simp [h3]
    rw [assembly_format, h1, h2, h3, h4]
    rfl

/-- Witness for C7 at a no-argument varret operator and at a no-return
vararg operator. -/
theorem C7_arrow_omission_witness :
    (maybe_arrow opNoArgsVarret = " `->` "
      ↔ (assembly_operand_types opNoArgsVarret ≠ "" ∧ assembly_result_types opNoArgsVarret ≠ ""))
  ∧ assembly_format opNoArgsVarret = " attr-dict `:` qualified(type($results))"
  ∧ assembly_format opVarargNoRets = "`(` $operands `)` attr-dict `:` qualified(type($operands))" :=
  ⟨(C7_arrow_omission opNoArgsVarret).1 (Or.inr rfl),
   (C7_arrow_omission opNoArgsVarret).2.1 rfl rfl rfl,
   (C7_arrow_omission opVarargNoRets).2.2 rfl rfl rfl⟩

/-- Claim C8 is refuted: the synthesized names only avoid each other, not
explicitly supplied names — an operator whose first return is explicitly
named `result1` and whose second return is nameless gets the local name
`result1` twice within one definition block. -/
theorem C8_counterexample :
    opC8bad.is_varret = false
  ∧ result_names opC8bad = ["result1", "result1"]
  ∧ ¬ (result_names opC8bad).Nodup := by
  refine ⟨rfl, by decide, by decide⟩

/-- Claim C8, amended: for a non-varret operator, every nameless return at
position `i` receives the synthesized name `result` when the operator has
at most one return and `result<i>` when it has more than one, and the
names synthesized for nameless returns are pairwise distinct within the
block (uniqueness against explicitly named returns is not enforced). -/
theorem C8_result_names (op : JitOperator) (h : op.is_varret = false) :
    (∀ (i : Nat) (ret : Arg), op.returns[i]? = some ret → ret.name = "" →
      (result_names op)[i]?
        = some (if 1 < op.returns.length then "result" ++ Nat.repr i else "result"))
  ∧ (∀ (i j : Nat) (reti retj : Arg),
      op.returns[i]? = some reti → op.returns[j]? = some retj →
      reti.name = "" → retj.name = "" → i ≠ j →
      (result_names op)[i]? ≠ (result_names op)[j]?) := by
  have hname : ∀ (i : Nat) (ret : Arg), op.returns[i]? = some ret → ret.name = "" →
      (result_names op)[i]?
        = some (if 1 < op.returns.length then "result" ++ Nat.repr i else "result") := by
    intro i ret hi hn
    rw [result_names, List.getElem?_map, List.getElem?_enum, hi]
    simp only [Option.map_some']
    rw [result_ods_name, if_pos hn, generic_result_name]
    by_cases hlen : 1 < op.returns.length
    · rw [if_pos hlen, multiple_results, if_pos (by exact decide_eq_true hlen)]
    · rw [if_neg hlen, multiple_results, if_neg (by simpa using hlen)]
      rfl
  refine ⟨hname, ?_⟩
  intro i j reti retj hi hj hni hnj hij
  rw [hname i reti hi hni, hname j retj hj hnj]
  by_cases hlen : 1 < op.returns.length
  · rw [if_pos hlen, if_pos hlen]
    intro hcontra
    have hs : "result" ++ Nat.repr i = "result" ++ Nat.repr j :=
      Option.some_injective _ hcontra
    exact hij (nat_repr_inj (string_append_left_cancel hs))
  · have hii : i < op.returns.length := by
      have := List.getElem?_eq_some.mp hi
      exact this.1
    have hjj : j < op.returns.length := by
      have := List.getElem?_eq_some.mp hj
      exact this.1
    omega

/-- Witness for C8's amended statement at `opMaxDim`, which has two
nameless returns. -/
theorem C8_result_names_witness :
    (result_names opMaxDim)[1]?
      = some (if 1 < opMaxDim.returns.length then "result" ++ Nat.repr 1 else "result")
  ∧ (result_names opMaxDim)[0]? ≠ (result_names opMaxDim)[1]? :=
  ⟨(C8_result_names opMaxDim rfl).1 1 ⟨"", "Tensor"⟩ rfl rfl,
   (C8_result_names opMaxDim rfl).2 0 1 ⟨"", "Tensor"⟩ ⟨"", "Tensor"⟩ rfl rfl rfl rfl
     (by decide)⟩

/-- Claim C1 is refuted: `aten::tanh`, which is neither vararg nor varret,
gets no synthesized `assemblyFormat` line at all — its definition block
carries the `hasCustomAssemblyFormat` marker and the hand-written
parse/print hook block instead.  The source's branch is the reverse of the
claimed one. -/
theorem C1_counterexample :
    opTanh.is_vararg = false ∧ opTanh.is_varret = false
  ∧ emits_fixed_assembly_format opTanh = false
  ∧ emits_parse_print_hooks opTanh = true := by
  exact ⟨rfl, rfl, rfl, rfl⟩

/-- Claim C1, amended: the branch is the reverse of the claimed one — an
operator that is neither vararg nor varret is marked
`hasCustomAssemblyFormat` with parse/print hooks parameterized by the
declared argument and return counts and gets no synthesized assembly
format, while an operator that is vararg or varret (either or both) gets a
single synthesized `assemblyFormat` line and no hooks. -/
theorem C1_assembly_branches (op : JitOperator) (traits : List String) (hf hc : Bool)
    (hargs : (arguments_chunk op).isOk = true) (hrets : (results_chunk op).isOk = true) :
    (∃ pre post, (raw_emit_op op traits hf hc).1 = pre ++ (assembly_section op ++ post))
  ∧ (op.is_vararg = false → op.is_varret = false →
      assembly_section op
        = ["let hasCustomAssemblyFormat = 1;",
           extra_class_definition (get_mlir_names op).2 op.arguments.length op.returns.length]
      ∧ emits_fixed_assembly_format op = false
      ∧ emits_parse_print_hooks op = true)
  ∧ ((op.is_vararg = true ∨ op.is_varret = true) →
      assembly_section op = ["let assemblyFormat = " ++ (quote (assembly_format op) ++ ";")]
      ∧ emits_fixed_assembly_format op = true
      ∧ emits_parse_print_hooks op = false) := by
  refine ⟨?_, ?_, ?_⟩
  · obtain ⟨a, ha⟩ : ∃ a, arguments_chunk op = Except.ok a := by
      cases hx : arguments_chunk op with
      | error e => rw [hx] at hargs; simp [Except.isOk, Except.toBool] at hargs
      | ok a => exact ⟨a, rfl⟩
    obtain ⟨r, hrr⟩ : ∃ r, results_chunk op = Except.ok r := by
      cases hx : results_chunk op with
      | error e => rw [hx] at hrets; simp [Except.isOk, Except.toBool] at hrets
      | ok r => exact ⟨r, rfl⟩
    refine ⟨header_chunks op traits ++ [a, ");", "let results = (outs", r, ");"],
            folder_chunks hf hc ++ ["\x7d", "\n"], ?_⟩
    unfold raw_emit_op
    rw [ha, hrr]
    simp [List.append_assoc]
  · intro h1 h2
    have hcond : ¬ ((op.is_vararg || op.is_varret) = true) := by
      rw [h1, h2]
      decide
    have hsec : assembly_section op
        = ["let hasCustomAssemblyFormat = 1;",
           extra_class_definition (get_mlir_names op).2 op.arguments.length op.returns.length] := by
      rw [assembly_section, if_neg hcond]
    refine ⟨hsec, ?_, ?_⟩
    · rw [emits_fixed_assembly_format, hsec]
      rfl
    · rw [emits_parse_print_hooks, hsec]
      rfl
  · intro h
    have hcond : (op.is_vararg || op.is_varret) = true := by
      rcases h with h | h <;> simp [h]
    have hsec : assembly_section op
        = ["let assemblyFormat = " ++ (quote (assembly_format op) ++ ";")] := by
      rw [assembly_section, if_pos hcond]
    refine ⟨hsec, ?_, ?_⟩
    · rw [emits_fixed_assembly_format, hsec]
      rfl
    · rw [emits_parse_print_hooks, hsec]
      rfl

/-- Witness for C1's amended statement at the fixed-arity `opTanh` and the
vararg `opVarargNoRets`. -/
theorem C1_assembly_branches_witness :
    (assembly_section opTanh
      = ["let hasCustomAssemblyFormat = 1;",
         extra_class_definition (get_mlir_names opTanh).2 opTanh.arguments.length opTanh.returns.length]
     ∧ emits_fixed_assembly_format opTanh = false
     ∧ emits_parse_print_hooks opTanh = true)
  ∧ (assembly_section opVarargNoRets
      = ["let assemblyFormat = " ++ (quote (assembly_format opVarargNoRets) ++ ";")]
     ∧ emits_fixed_assembly_format opVarargNoRets = true
     ∧ emits_parse_print_hooks opVarargNoRets = false) :=
  ⟨(C1_assembly_branches opTanh [] false false rfl rfl).2.1 rfl rfl,
   (C1_assembly_branches opVarargNoRets [] false false rfl rfl).2.2 (Or.inl rfl)⟩

/-- Claim C2 is refuted: requesting the mutating variant of `aten::zero`
against a registry lacking `aten::zero_` does raise the error naming the
attempted triple, but the base operator's definition block has already
been appended to the sink — the chunks are non-empty, so the paired
emission is not atomic. -/
theorem C2_counterexample :
    (emit_with_mutating_variants regC2 ("aten::zero : (Tensor) -> (Tensor)") none false false).2
      = some (unresolved_variant_error ("aten", "zero_", ""))
  ∧ (emit_with_mutating_variants regC2 ("aten::zero : (Tensor) -> (Tensor)") none false false).1
      ≠ [] := by
  exact ⟨rfl, by decide⟩

/-- Claim C2, amended: when the base key resolves and emits but the
derived in-place triple is absent from the registry, the call fails with
the `UnresolvedVariantError` naming the attempted triple, yet the base
operator's chunks have already been appended to the sink (only the
variant's text is withheld): the paired emission is not atomic. -/
theorem C2_variant_failure_keeps_base (r : Registry) (key : String)
    (ts : Option (List String)) (hf hc : Bool) (base : JitOperator)
    (hbase : r.getByKey key = some base)
    (hok : (emit_op base ts hf hc).2 = none)
    (hmiss : r.get_by_triple (derived_triple base) = none) :
    emit_with_mutating_variants r key ts hf hc
      = ((emit_op base ts hf hc).1, some (unresolved_variant_error (derived_triple base)))
  ∧ (emit_op base ts hf hc).1 ≠ [] := by
  constructor
  · simp only [emit_with_mutating_variants, hbase, hok, hmiss]
  · exact raw_emit_op_fst_ne_nil base (emit_op_traits base ts) hf hc

/-- Witness for C2's amended statement at the registry `regC2`, which
holds `aten::zero` but not `aten::zero_`. -/
theorem C2_variant_failure_keeps_base_witness :
    emit_with_mutating_variants regC2 ("aten::zero : (Tensor) -> (Tensor)") none false false
      = ((emit_op opZero none false false).1,
         some (unresolved_variant_error (derived_triple opZero)))
  ∧ (emit_op opZero none false false).1 ≠ [] :=
  C2_variant_failure_keeps_base regC2 ("aten::zero : (Tensor) -> (Tensor)") none false false
    opZero rfl rfl rfl

/-- Claim C6: the derived mutating-variant triple keeps the namespace,
appends a trailing underscore to the unqualified name, and clears the
overload exactly when the base overload is the `functional` sentinel; the
variant is emitted with the `IsTrailingUnderscoreInplaceVariant` pairing
trait exactly when the base overload is not `functional`. -/
theorem C6_variant_triple_and_pairing_trait (r : Registry) (key : String)
    (ts : Option (List String)) (hf hc : Bool) (base variantOp : JitOperator)
    (hbase : r.getByKey key = some base)
    (hvar : r.get_by_triple (derived_triple base) = some variantOp) :
    derived_triple base
      = (base.ns, base.unqualified_name ++ "_",
         if base.overload = "functional" then "" else base.overload)
  ∧ (base.overload = "functional" → variant_traits base = [])
  ∧ (base.overload ≠ "functional" →
      variant_traits base = ["IsTrailingUnderscoreInplaceVariant"])
  ∧ (("IsTrailingUnderscoreInplaceVariant"
        ∈ emit_op_traits variantOp (some (variant_traits base)))
      ↔ base.overload ≠ "functional")
  ∧ ((emit_op base ts hf hc).2 = none →
      emit_with_mutating_variants r key ts hf hc
        = ((emit_op base ts hf hc).1
            ++ (emit_op variantOp (some (variant_traits base)) false false).1,
           (emit_op variantOp (some (variant_traits base)) false false).2)) := by
  refine ⟨?_, ?_, ?_, ?_, ?_⟩
  · by_cases hfo : base.overload = "functional" <;>
      simp [derived_triple, is_functional_op, hfo]
  · intro hfo
    simp [variant_traits, is_functional_op, hfo]
  · intro hfo
    simp [variant_traits, is_functional_op, hfo]
  · by_cases hfo : base.overload = "functional" <;>
      simp [emit_op_traits, variant_traits, is_functional_op, hfo,
        not_mem_inferred_traits variantOp]
  · intro hok
    simp only [emit_with_mutating_variants, hbase, hok, hvar]

/-- Witness for C6 at `regC6`, pairing `aten::triu` (empty, non-functional
overload) with `aten::triu_`. -/
theorem C6_variant_triple_and_pairing_trait_witness :
    variant_traits opBaseTriu = ["IsTrailingUnderscoreInplaceVariant"]
  ∧ ("IsTrailingUnderscoreInplaceVariant"
      ∈ emit_op_traits opVarTriu (some (variant_traits opBaseTriu)))
  ∧ emit_with_mutating_variants regC6 ("aten::triu : (Tensor, int) -> (Tensor)") none false false
      = ((emit_op opBaseTriu none false false).1
          ++ (emit_op opVarTriu (some (variant_traits opBaseTriu)) false false).1,
         (emit_op opVarTriu (some (variant_traits opBaseTriu)) false false).2) := by
  have h := C6_variant_triple_and_pairing_trait regC6
    ("aten::triu : (Tensor, int) -> (Tensor)") none false false opBaseTriu opVarTriu rfl rfl
  exact ⟨h.2.2.1 (by decide), h.2.2.2.1.mpr (by decide), h.2.2.2.2 rfl⟩

end TorchOdsGen
